import Mathlib

/-!
Verification of the galaxy-one turn-resolution core.

This file shallowly embeds the game mechanics of the repository
(src/server/game/...) in Lean: worlds, fleets and the game state are plain
structures, Python integers become Int, and every mechanic from
mechanics/combat.py, mechanics/movement.py, mechanics/production.py,
mechanics/ownership.py, turn_processor.py, commands.py, command_validators.py
and command_handlers.py that the theorems below mention is translated
function-by-function from the source.  The in-memory object graph of the
Python code keeps fleet.world and world.fleets in sync; the embedding keeps
one side (each Fleet stores the id of its world) and recovers the fleet list
of a world by filtering, which is the same information.
-/

namespace GalaxyOne

/-- Python math.ceil(a / b) for a positive divisor b.  The source divides
Python ints with true division and applies math.ceil; for the magnitudes the
game state reaches this equals the exact integer ceiling, which is
floor((a + b - 1) / b). -/
def ceil_div (a b : Int) : Int :=
  (a + b - 1).ediv b

/-- World record, from entities.py (class World) plus the two attributes the
mechanics modules attach dynamically: population_used_building
(mechanics/production.py) and pending_owner (mechanics/ownership.py).
Owners are player ids; None becomes Option.none. -/
structure World where
  id : Int
  connections : List Int
  owner : Option Int
  industry : Int
  metal : Int
  mines : Int
  population : Int
  limit : Int
  iships : Int
  pships : Int
  population_used_building : Int
  pending_owner : Option Int
  deriving Repr, DecidableEq

/-- Fleet record, from entities.py (class Fleet).  The world field holds the
id of the world the fleet is at. -/
structure Fleet where
  id : Int
  owner : Option Int
  world : Int
  ships : Int
  cargo : Int
  moved : Bool
  is_ambushing : Bool
  deriving Repr, DecidableEq

/-- The shared game state slice the verified mechanics read and write:
the world and fleet registries of state.py. -/
structure GameState where
  worlds : List World
  fleets : List Fleet
  deriving Repr, DecidableEq

/-- game_state.get_world(id). -/
def get_world (gs : GameState) (id : Int) : Option World :=
  gs.worlds.find? (fun w => w.id == id)

/-- game_state.get_fleet(id). -/
def get_fleet (gs : GameState) (id : Int) : Option Fleet :=
  gs.fleets.find? (fun f => f.id == id)

/-- In-place mutation of the fleet with the given id. -/
def update_fleet (gs : GameState) (id : Int) (g : Fleet → Fleet) : GameState :=
  { gs with fleets := gs.fleets.map (fun f => if f.id == id then g f else f) }

/-- In-place mutation of the world with the given id. -/
def update_world (gs : GameState) (id : Int) (g : World → World) : GameState :=
  { gs with worlds := gs.worlds.map (fun w => if w.id == id then g w else w) }

theorem find?_map_of_pred {α : Type} (u : α → α) (p : α → Bool)
    (hu : ∀ a, p (u a) = p a) :
    ∀ l : List α, (l.map u).find? p = (l.find? p).map u := by
  intro l
  induction l with
  | nil => rfl
  | cons a l ih =>
    by_cases h : p a
    · rw [List.map_cons, List.find?_cons_of_pos _ (by rw [hu]; exact h),
        List.find?_cons_of_pos _ h, Option.map_some']
    · rw [List.map_cons, List.find?_cons_of_neg _ (by rw [hu]; exact h),
        List.find?_cons_of_neg _ h]
      exact ih

theorem get_fleet_update_fleet (gs : GameState) (id j : Int) (g : Fleet → Fleet)
    (hg : ∀ f, (g f).id = f.id) :
    get_fleet (update_fleet gs id g) j =
      (get_fleet gs j).map (fun f => if f.id == id then g f else f) := by
  unfold get_fleet update_fleet
  exact find?_map_of_pred _ _ (fun f => by by_cases h : f.id == id <;> simp [h, hg]) gs.fleets

theorem get_world_update_world (gs : GameState) (id j : Int) (g : World → World)
    (hg : ∀ w, (g w).id = w.id) :
    get_world (update_world gs id g) j =
      (get_world gs j).map (fun w => if w.id == id then g w else w) := by
  unfold get_world update_world
  exact find?_map_of_pred _ _ (fun w => by by_cases h : w.id == id <;> simp [h, hg]) gs.worlds

theorem get_fleet_id (gs : GameState) (id : Int) (f : Fleet)
    (h : get_fleet gs id = some f) : f.id = id := by
  have := List.find?_some h
  simpa using this

theorem get_world_id (gs : GameState) (id : Int) (w : World)
    (h : get_world gs id = some w) : w.id = id := by
  have := List.find?_some h
  simpa using this

/-! ## Combat (mechanics/combat.py) -/

/-- resolve_combat (combat.py lines 17-33): returns
(attacker_losses, defender_losses). -/
def resolve_combat (attacker_ships defender_ships : Int) : Int × Int :=
  let hits_on_defender := attacker_ships
  let hits_on_attacker := defender_ships
  let defender_losses := ceil_div hits_on_defender 2
  let attacker_losses := ceil_div hits_on_attacker 2
  (attacker_losses, defender_losses)

/-- execute_fire_order for a FLEET target followed by fire_at_fleet
(combat.py lines 36-60 and 140-167): guards, then both ship counts are
reduced sequentially with a floor of zero.  Event publication and user
messages carry no game state and are omitted. -/
def execute_fire_order_at_fleet (gs : GameState) (player fleet_id target_id : Int) :
    GameState :=
  match get_fleet gs fleet_id with
  | none => gs
  | some fleet =>
    if fleet.owner != some player then gs
    else
      match get_fleet gs target_id with
      | none => gs
      | some defender_fleet =>
        if defender_fleet.world != fleet.world then gs
        else
          let dmg := resolve_combat fleet.ships defender_fleet.ships
          let gs1 := update_fleet gs fleet_id
            (fun f => { f with ships := max 0 (f.ships - dmg.1) })
          update_fleet gs1 target_id
            (fun f => { f with ships := max 0 (f.ships - dmg.2) })

/-- fire_at_world (combat.py lines 63-137), restricted to its effect on the
world; the second component is the population killed, which the code also
subtracts from the score of the firing player.  Only the sub targets P and I
mutate anything. -/
def fire_at_world (w : World) (shots : Int) (sub_target : String) : World × Int :=
  if sub_target == "P" then
    let def_ships := w.pships
    let w1 := { w with pships := max 0 (w.pships - ceil_div shots 2) }
    let rem_shots := shots - def_ships * 2
    if rem_shots > 0 then
      let pop_killed := ceil_div rem_shots 2
      ({ w1 with population := max 0 (w1.population - pop_killed) }, pop_killed)
    else
      (w1, 0)
  else if sub_target == "I" then
    let def_ships := w.iships
    let w1 := { w with iships := max 0 (w.iships - ceil_div shots 2) }
    let rem_shots := shots - def_ships * 2
    if rem_shots > 0 then
      let ind_destroyed := ceil_div rem_shots 2
      ({ w1 with industry := max 0 (w1.industry - ind_destroyed) }, 0)
    else
      (w1, 0)
  else
    (w, 0)

/-- C2: a FIRE-at-fleet order that passes the execution guards costs the
attacker ceil(defender_ships / 2) ships and the defender
ceil(attacker_ships / 2) ships, both floored at zero remaining. -/
theorem fire_at_fleet_losses (gs : GameState) (player fleet_id target_id : Int)
    (atk dfd : Fleet)
    (hatk : get_fleet gs fleet_id = some atk)
    (hown : atk.owner = some player)
    (hdfd : get_fleet gs target_id = some dfd)
    (hw : dfd.world = atk.world)
    (hne : fleet_id ≠ target_id) :
    get_fleet (execute_fire_order_at_fleet gs player fleet_id target_id) fleet_id =
      some { atk with ships := max 0 (atk.ships - ceil_div dfd.ships 2) } ∧
    get_fleet (execute_fire_order_at_fleet gs player fleet_id target_id) target_id =
      some { dfd with ships := max 0 (dfd.ships - ceil_div atk.ships 2) } := by
  have hida : atk.id = fleet_id := get_fleet_id gs fleet_id atk hatk
  have hidd : dfd.id = target_id := get_fleet_id gs target_id dfd hdfd
  unfold execute_fire_order_at_fleet
  rw [hatk, hdfd]
  simp only [hown, hw, bne_self_eq_false, Bool.false_eq_true, if_false]
  constructor <;>
    simp [get_fleet_update_fleet, hatk, hdfd, hida, hidd, hne, Ne.symm hne,
      resolve_combat, hown, hw]

/-- A two-fleet state: the attacker (fleet 1, player 1) has 10 ships, the
defender (fleet 2, player 2) has 7 ships, both at world 1. -/
def fire_example_state : GameState :=
  { worlds := [{ id := 1, connections := [], owner := none, industry := 0, metal := 0,
                 mines := 0, population := 0, limit := 0, iships := 0, pships := 0,
                 population_used_building := 0, pending_owner := none }],
    fleets := [{ id := 1, owner := some 1, world := 1, ships := 10, cargo := 0,
                 moved := false, is_ambushing := false },
               { id := 2, owner := some 2, world := 1, ships := 7, cargo := 0,
                 moved := false, is_ambushing := false }] }

/-- Witness for C2 at the example of the spec: attacker 10 ships and defender
7 ships end with 6 and 2 ships. -/
theorem fire_at_fleet_losses_witness :
    get_fleet (execute_fire_order_at_fleet fire_example_state 1 1 2) 1 =
      some { id := 1, owner := some 1, world := 1, ships := 6, cargo := 0,
             moved := false, is_ambushing := false } ∧
    get_fleet (execute_fire_order_at_fleet fire_example_state 1 1 2) 2 =
      some { id := 2, owner := some 2, world := 1, ships := 2, cargo := 0,
             moved := false, is_ambushing := false } := by
  have h := fire_at_fleet_losses fire_example_state 1 1 2
    { id := 1, owner := some 1, world := 1, ships := 10, cargo := 0,
      moved := false, is_ambushing := false }
    { id := 2, owner := some 2, world := 1, ships := 7, cargo := 0,
      moved := false, is_ambushing := false }
    rfl rfl rfl rfl (by decide)
  refine ⟨?_, ?_⟩
  · rw [h.1]; decide
  · rw [h.2]; decide

/-- C3: a FIRE at world defenses with S shots against garrison G reduces the
garrison by ceil(S / 2) floored at zero; the remaining shots are S - G * 2
floored at zero, and only when they are positive is the matching installation
(population for P, industry for I) reduced by ceil(remaining / 2), floored at
zero. -/
theorem fire_at_world_damage (w : World) (shots : Int) :
    ((fire_at_world w shots "P").1 =
      { w with
        pships := max 0 (w.pships - ceil_div shots 2),
        population :=
          if 0 < max 0 (shots - w.pships * 2) then
            max 0 (w.population - ceil_div (max 0 (shots - w.pships * 2)) 2)
          else w.population }) ∧
    ((fire_at_world w shots "I").1 =
      { w with
        iships := max 0 (w.iships - ceil_div shots 2),
        industry :=
          if 0 < max 0 (shots - w.iships * 2) then
            max 0 (w.industry - ceil_div (max 0 (shots - w.iships * 2)) 2)
          else w.industry }) := by
  constructor
  · by_cases h : 0 < shots - w.pships * 2
    · rw [max_eq_right (le_of_lt h)]
      simp [fire_at_world, h]
    · have hm : max 0 (shots - w.pships * 2) = 0 := max_eq_left (by omega)
      rw [hm]
      simp only [lt_irrefl, if_false]
      simp [fire_at_world, show ¬ shots - w.pships * 2 > 0 from h]
  · by_cases h : 0 < shots - w.iships * 2
    · rw [max_eq_right (le_of_lt h)]
      simp [fire_at_world, h]
    · have hm : max 0 (shots - w.iships * 2) = 0 := max_eq_left (by omega)
      rw [hm]
      simp only [lt_irrefl, if_false]
      simp [fire_at_world, show ¬ shots - w.iships * 2 > 0 from h]

/-! ## Movement (mechanics/movement.py) -/

/-- The ambushing fleets at a destination world, from the list comprehension
in execute_move_order (movement.py lines 45-48): fleets at the world that are
ambushing, are not owned by the moving player (a neutral owner also counts),
and have a positive ship count. -/
def ambushers_at (gs : GameState) (dest_id : Int) (player : Int) : List Fleet :=
  gs.fleets.filter (fun f =>
    f.world == dest_id && f.is_ambushing && f.owner != some player && decide (0 < f.ships))

/-- The scan of the movement path (the for-loop of execute_move_order,
movement.py lines 39-54): hops whose world id does not resolve are skipped,
and the first hop with a nonempty ambusher list stops the move there. -/
def move_scan (gs : GameState) (player : Int) : List Int → Option (Int × List Fleet)
  | [] => none
  | dest_id :: rest =>
    match get_world gs dest_id with
    | none => move_scan gs player rest
    | some _ =>
      let ambushers := ambushers_at gs dest_id player
      if ambushers.isEmpty then move_scan gs player rest else some (dest_id, ambushers)

/-- handle_ambush (movement.py lines 80-117): the fleet is relocated to the
ambush world, marked moved, and loses ceil(strength / 2) ships where strength
is the summed ambusher ships times two, floored at zero remaining. -/
def handle_ambush (gs : GameState) (fleet_id dest_id : Int) (ambushers : List Fleet) :
    GameState :=
  let total_ambush_strength := (ambushers.map Fleet.ships).sum * 2
  let damage_to_fleet := ceil_div total_ambush_strength 2
  update_fleet gs fleet_id (fun f =>
    { f with world := dest_id, moved := true, ships := max 0 (f.ships - damage_to_fleet) })

/-- execute_move_order (movement.py lines 16-77).  The two degenerate cases
the running game never produces are embedded as no-ops: an empty path (the
parser requires at least one hop; Python would raise IndexError at
path[-1]) and a final hop whose world id does not resolve (world ids come
from the fixed registry; Python would leave the fleet pointing at None). -/
def execute_move_order (gs : GameState) (player fleet_id : Int) (path : List Int) :
    GameState :=
  match get_fleet gs fleet_id with
  | none => gs
  | some fleet =>
    if fleet.owner != some player || fleet.ships == 0 then gs
    else
      match move_scan gs player path with
      | some (dest_id, ambushers) => handle_ambush gs fleet_id dest_id ambushers
      | none =>
        match path.getLast? with
        | none => gs
        | some final_dest =>
          match get_world gs final_dest with
          | none => gs
          | some _ =>
            update_fleet gs fleet_id (fun f => { f with world := final_dest, moved := true })

theorem move_scan_first_ambush (gs : GameState) (player : Int)
    (pre post : List Int) (w : Int) (ww : World)
    (hpre : ∀ x ∈ pre, ambushers_at gs x player = [])
    (hww : get_world gs w = some ww)
    (hamb : ambushers_at gs w player ≠ []) :
    move_scan gs player (pre ++ w :: post) = some (w, ambushers_at gs w player) := by
  induction pre with
  | nil =>
    simp only [List.nil_append, move_scan, hww]
    simp [List.isEmpty_iff, hamb]
  | cons x pre ih =>
    have hx : ambushers_at gs x player = [] := hpre x (List.mem_cons_self x pre)
    have hrest : ∀ y ∈ pre, ambushers_at gs y player = [] :=
      fun y hy => hpre y (List.mem_cons_of_mem x hy)
    simp only [List.cons_append, move_scan]
    cases hgx : get_world gs x with
    | none => exact ih hrest
    | some wx =>
      simp only [hx, List.isEmpty_nil, if_true]
      exact ih hrest

/-- The loss handle_ambush inflicts on the intercepted fleet:
ceil((sum of ambusher ships * 2) / 2). -/
def ambush_damage (gs : GameState) (w player : Int) : Int :=
  ceil_div (((ambushers_at gs w player).map Fleet.ships).sum * 2) 2

/-- C4: a MOVE order whose path reaches a world holding at least one
ambushing fleet of another owner (after earlier hops free of ambushers)
leaves the fleet relocated at that world, marked moved, with
ceil((sum of ambusher ships * 2) / 2) ships lost, floored at zero — the rest
of the path is never taken. -/
theorem move_ambush_interception (gs : GameState) (player fleet_id : Int)
    (pre post : List Int) (w : Int) (fl : Fleet) (ww : World)
    (hfl : get_fleet gs fleet_id = some fl)
    (hown : fl.owner = some player)
    (hships : fl.ships ≠ 0)
    (hpre : ∀ x ∈ pre, ambushers_at gs x player = [])
    (hww : get_world gs w = some ww)
    (hamb : ambushers_at gs w player ≠ []) :
    get_fleet (execute_move_order gs player fleet_id (pre ++ w :: post)) fleet_id =
      some { fl with world := w, moved := true, ships := max 0 (fl.ships - ambush_damage gs w player) } := by
  have hid : fl.id = fleet_id := get_fleet_id gs fleet_id fl hfl
  unfold execute_move_order
  rw [hfl, move_scan_first_ambush gs player pre post w ww hpre hww hamb]
  simp only [hown, bne_self_eq_false, Bool.false_or]
  rw [if_neg (by simpa using hships)]
  unfold handle_ambush ambush_damage
  simp [get_fleet_update_fleet, hfl, hid, hown]

/-- The example state of the spec: fleet 3 (player 1, 5 ships) at world 1,
and an ambushing fleet 4 (player 2, 4 ships) at world 9. -/
def ambush_example_state : GameState :=
  { worlds := [{ id := 1, connections := [9], owner := none, industry := 0, metal := 0,
                 mines := 0, population := 0, limit := 0, iships := 0, pships := 0,
                 population_used_building := 0, pending_owner := none },
               { id := 9, connections := [1], owner := none, industry := 0, metal := 0,
                 mines := 0, population := 0, limit := 0, iships := 0, pships := 0,
                 population_used_building := 0, pending_owner := none }],
    fleets := [{ id := 3, owner := some 1, world := 1, ships := 5, cargo := 0,
                 moved := false, is_ambushing := false },
               { id := 4, owner := some 2, world := 9, ships := 4, cargo := 0,
                 moved := false, is_ambushing := true }] }

/-- Witness for C4 at the example of the spec: the 5-ship fleet moving into
the ambush at world 9 ends there with 1 ship. -/
theorem move_ambush_interception_witness :
    get_fleet (execute_move_order ambush_example_state 1 3 [9]) 3 =
      some { id := 3, owner := some 1, world := 9, ships := 1, cargo := 0,
             moved := true, is_ambushing := false } := by
  have h := move_ambush_interception ambush_example_state 1 3 [] [] 9
    { id := 3, owner := some 1, world := 1, ships := 5, cargo := 0,
      moved := false, is_ambushing := false }
    { id := 9, connections := [1], owner := none, industry := 0, metal := 0,
      mines := 0, population := 0, limit := 0, iships := 0, pships := 0,
      population_used_building := 0, pending_owner := none }
    rfl rfl (by decide) (by intro x hx; cases hx) rfl (by decide)
  rw [show ([] : List Int) ++ 9 :: [] = [9] from rfl] at h
  rw [h]; decide

/-! ## Production and building (mechanics/production.py) -/

/-- process_world_production (production.py lines 15-59).  An unowned world
returns immediately.  Python computes population growth with
math.ceil(population * 0.10), which equals the exact ceiling of
population / 10 throughout the ranges the game reaches. -/
def process_world_production (w : World) : World :=
  match w.owner with
  | none => w
  | some _ =>
    let population_used_building := w.population_used_building
    let available_population := w.population - population_used_building
    let production := min w.mines (max 0 available_population)
    let w1 := { w with metal := w.metal + production, population_used_building := 0 }
    if w1.population < w1.limit then
      { w1 with population := min (w1.population + ceil_div w1.population 10) w1.limit }
    else
      w1

theorem ceil_div_nonneg (a b : Int) (ha : 0 ≤ a) (hb : 0 < b) : 0 ≤ ceil_div a b := by
  unfold ceil_div
  apply Int.ediv_nonneg <;> omega

/-- C7: on an owned world one production run adds
min(mines, max(0, population - population_used_building)) to metal, grows
population by ceil(population * 0.10) capped at the limit, and resets the
building commitment to zero; an unowned world is left untouched. -/
theorem production_per_world (w : World)
    (hpop : 0 ≤ w.population) (hlim : w.population ≤ w.limit) :
    match w.owner with
    | none => process_world_production w = w
    | some _ =>
        process_world_production w =
          { w with
            metal := w.metal + min w.mines (max 0 (w.population - w.population_used_building)),
            population := min (w.population + ceil_div w.population 10) w.limit,
            population_used_building := 0 } := by
  cases howner : w.owner with
  | none => simp [process_world_production, howner]
  | some p =>
    simp only [process_world_production, howner]
    by_cases h : w.population < w.limit
    · simp [h]
    · have hg : 0 ≤ ceil_div w.population 10 := ceil_div_nonneg _ _ hpop (by omega)
      have heq : w.population = w.limit := by omega
      have hmin : min (w.population + ceil_div w.population 10) w.limit = w.population := by
        omega
      simp [h, hmin]

/-- A world owned by player 1 with population 10, of which 5 are committed
to building, 2 mines, and room to grow. -/
def production_example_world : World :=
  { id := 5, connections := [], owner := some 1, industry := 10, metal := 10,
    mines := 2, population := 10, limit := 20, iships := 0, pships := 0,
    population_used_building := 5, pending_owner := none }

/-- Witness for C7: the example world gains min(2, 10 - 5) = 2 metal, grows
to min(10 + 1, 20) = 11 population, and its commitment counter resets. -/
theorem production_per_world_witness :
    process_world_production production_example_world =
      { id := 5, connections := [], owner := some 1, industry := 10, metal := 12,
        mines := 2, population := 11, limit := 20, iships := 0, pships := 0,
        population_used_building := 0, pending_owner := none } := by
  have h := production_per_world production_example_world (by decide) (by decide)
  rw [show process_world_production production_example_world =
      { production_example_world with
        metal := production_example_world.metal +
          min production_example_world.mines
            (max 0 (production_example_world.population -
              production_example_world.population_used_building)),
        population := min (production_example_world.population +
          ceil_div production_example_world.population 10) production_example_world.limit,
        population_used_building := 0 } from h]
  decide

/-- A BUILD order record (commands.py BuildCommand.to_order). -/
structure BuildOrder where
  player : Int
  world_id : Int
  amount : Int
  target_type : String
  target_id : Option Int
  deriving Repr, DecidableEq

/-- The access test of execute_build_order (production.py line 87): the
builder owns the world or has a fleet there. -/
def can_build (gs : GameState) (o : BuildOrder) (world : World) : Bool :=
  world.owner == some o.player ||
    gs.fleets.any (fun f => f.world == o.world_id && f.owner == some o.player)

/-- execute_build_order (production.py lines 62-152).  Python tests the
fleet target id for truthiness, so a missing id and an id of 0 behave the
same; the F-branch with an invalid target refunds the metal and the
commitment, restoring the state unchanged.  Score events and the
player.worlds bookkeeping lists (derivable from world.owner) are omitted. -/
def execute_build_order (gs : GameState) (o : BuildOrder) : GameState :=
  match get_world gs o.world_id with
  | none => gs
  | some world =>
    if !can_build gs o world then gs
    else
      let max_build := min world.industry (min world.metal world.population)
      let actual_amount := min o.amount max_build
      if actual_amount ≤ 0 then gs
      else
        let world1 := { world with
          metal := world.metal - actual_amount,
          population_used_building := world.population_used_building + actual_amount }
        if o.target_type == "I" then
          let world2 := { world1 with iships := world1.iships + actual_amount }
          let world3 :=
            if world.owner == none then { world2 with owner := some o.player } else world2
          update_world gs o.world_id (fun _ => world3)
        else if o.target_type == "P" then
          let world2 := { world1 with pships := world1.pships + actual_amount }
          let world3 :=
            if world.owner == none then { world2 with owner := some o.player } else world2
          update_world gs o.world_id (fun _ => world3)
        else if o.target_type == "F" && o.target_id.getD 0 != 0 then
          match get_fleet gs (o.target_id.getD 0) with
          | some fleet =>
            if fleet.world == o.world_id && fleet.owner == some o.player then
              update_fleet (update_world gs o.world_id (fun _ => world1))
                (o.target_id.getD 0) (fun f => { f with ships := f.ships + actual_amount })
            else gs
          | none => gs
        else
          update_world gs o.world_id (fun _ => world1)

/-- The units an executed BUILD order actually builds: the same
actual_amount computation as execute_build_order, clamped to zero on the
early-return paths. -/
def build_actual_amount (gs : GameState) (o : BuildOrder) : Int :=
  match get_world gs o.world_id with
  | none => 0
  | some world =>
    if !can_build gs o world then 0
    else
      let max_build := min world.industry (min world.metal world.population)
      let actual_amount := min o.amount max_build
      if actual_amount ≤ 0 then 0 else actual_amount

/-- Folding a list of BUILD orders through execute_build_order, as the BUILD
phase of process_turn does. -/
def execute_build_orders (gs : GameState) (os : List BuildOrder) : GameState :=
  os.foldl execute_build_order gs

/-- Every world has nonnegative industry, metal and population. -/
def worlds_nonneg (gs : GameState) : Prop :=
  ∀ w ∈ gs.worlds, 0 ≤ w.industry ∧ 0 ≤ w.metal ∧ 0 ≤ w.population

theorem worlds_nonneg_update_const (gs : GameState) (id : Int) (W : World)
    (h : worlds_nonneg gs) (hW : 0 ≤ W.industry ∧ 0 ≤ W.metal ∧ 0 ≤ W.population) :
    worlds_nonneg (update_world gs id (fun _ => W)) := by
  intro w2 hw2
  simp only [update_world, List.mem_map] at hw2
  obtain ⟨a, ha, rfl⟩ := hw2
  by_cases hid : (a.id == id) = true
  · simpa [hid] using hW
  · simpa [hid] using h a ha

theorem worlds_of_update_fleet (gs : GameState) (id : Int) (g : Fleet → Fleet) :
    (update_fleet gs id g).worlds = gs.worlds := rfl

theorem worlds_nonneg_update_fleet (gs : GameState) (id : Int) (g : Fleet → Fleet)
    (h : worlds_nonneg gs) : worlds_nonneg (update_fleet gs id g) := h

theorem execute_build_order_nonneg (gs : GameState) (o : BuildOrder)
    (h : worlds_nonneg gs) : worlds_nonneg (execute_build_order gs o) := by
  unfold execute_build_order
  cases hgw : get_world gs o.world_id with
  | none => exact h
  | some world =>
    have hmem : world ∈ gs.worlds := List.mem_of_find?_eq_some hgw
    obtain ⟨hi, hm, hp⟩ := h world hmem
    by_cases hcb : (!can_build gs o world) = true
    · simp only [hcb, if_true]; exact h
    · simp only [hcb, if_false]
      set actual := min o.amount (min world.industry (min world.metal world.population))
        with hactual
      by_cases hle : actual ≤ 0
      · simp only [hle, if_true]; exact h
      · simp only [hle, if_false]
        have hcap : actual ≤ world.metal := by
          calc actual ≤ min world.industry (min world.metal world.population) :=
                min_le_right _ _
            _ ≤ min world.metal world.population := min_le_right _ _
            _ ≤ world.metal := min_le_left _ _
        by_cases hI : (o.target_type == "I") = true
        · simp only [hI, if_true]
          by_cases hno : (world.owner == none) = true <;>
            · simp only [hno, if_true, if_false]
              exact worlds_nonneg_update_const gs _ _ h (by simp; omega)
        · simp only [hI, if_false]
          by_cases hP : (o.target_type == "P") = true
          · simp only [hP, if_true]
            by_cases hno : (world.owner == none) = true <;>
              · simp only [hno, if_true, if_false]
                exact worlds_nonneg_update_const gs _ _ h (by simp; omega)
          · simp only [hP, if_false]
            by_cases hF : (o.target_type == "F" && o.target_id.getD 0 != 0) = true
            · simp only [hF, if_true]
              cases hgf : get_fleet gs (o.target_id.getD 0) with
              | none => exact h
              | some fleet =>
                by_cases hok : (fleet.world == o.world_id && fleet.owner == some o.player) = true
                · simp only [hok, if_true]
                  exact worlds_nonneg_update_fleet _ _ _
                    (worlds_nonneg_update_const gs _ _ h (by simp; omega))
                · simp only [hok, if_false]; exact h
            · simp only [hF, if_false]
              exact worlds_nonneg_update_const gs _ _ h (by simp; omega)

/-- C9: an executed BUILD order builds at most min(industry, metal,
population) units as re-checked against the current world at execution time,
and no sequence of executed BUILD orders drives any industry, metal or
population below zero. -/
theorem build_respects_resources :
    (∀ (gs : GameState) (o : BuildOrder) (w : World),
        get_world gs o.world_id = some w → 0 ≤ w.industry → 0 ≤ w.metal →
        0 ≤ w.population →
        build_actual_amount gs o ≤ min w.industry (min w.metal w.population)) ∧
    (∀ (gs : GameState) (os : List BuildOrder),
        worlds_nonneg gs → worlds_nonneg (execute_build_orders gs os)) := by
  constructor
  · intro gs o w hgw hi hm hp
    have hnn : 0 ≤ min w.industry (min w.metal w.population) :=
      le_min hi (le_min hm hp)
    unfold build_actual_amount
    rw [hgw]
    by_cases hcb : (!can_build gs o w) = true
    · simp only [hcb, if_true]; exact hnn
    · simp only [hcb, if_false]
      by_cases hle : min o.amount (min w.industry (min w.metal w.population)) ≤ 0
      · simp only [hle, if_true]; exact hnn
      · simp only [hle, if_false]; exact min_le_right _ _
  · intro gs os h
    unfold execute_build_orders
    induction os generalizing gs with
    | nil => exact h
    | cons o os ih => exact ih _ (execute_build_order_nonneg gs o h)

/-- A neutral world with resources and one visiting fleet of player 7. -/
def build_example_state : GameState :=
  { worlds := [{ id := 5, connections := [], owner := none, industry := 10, metal := 10,
                 mines := 0, population := 10, limit := 20, iships := 0, pships := 0,
                 population_used_building := 0, pending_owner := none }],
    fleets := [{ id := 1, owner := some 7, world := 5, ships := 3, cargo := 0,
                 moved := false, is_ambushing := false }] }

/-- A BUILD of 5 I-ships at world 5 by player 7. -/
def build_example_order : BuildOrder :=
  { player := 7, world_id := 5, amount := 5, target_type := "I", target_id := none }

/-- Witness for C9 at a concrete state: the built amount respects the
resource cap and the fold keeps resources nonnegative. -/
theorem build_respects_resources_witness :
    build_actual_amount build_example_state build_example_order ≤ min 10 (min 10 10) ∧
    worlds_nonneg (execute_build_orders build_example_state [build_example_order]) := by
  constructor
  · exact build_respects_resources.1 build_example_state build_example_order
      { id := 5, connections := [], owner := none, industry := 10, metal := 10,
        mines := 0, population := 10, limit := 20, iships := 0, pships := 0,
        population_used_building := 0, pending_owner := none }
      rfl (by decide) (by decide) (by decide)
  · exact build_respects_resources.2 build_example_state [build_example_order] (by
      intro w hw
      simp only [build_example_state, List.mem_singleton] at hw
      subst hw
      exact ⟨by decide, by decide, by decide⟩)

theorem find?_map_const_of_found {α : Type} (p : α → Bool) (W : α) (hpW : p W = true) :
    ∀ l : List α, (l.find? p).isSome →
      (l.map (fun a => if p a then W else a)).find? p = some W := by
  intro l
  induction l with
  | nil => intro h; simp [List.find?] at h
  | cons a l ih =>
    intro h
    by_cases ha : p a = true
    · simp only [List.map_cons, ha, if_true]
      rw [List.find?_cons_of_pos _ hpW]
    · simp only [List.map_cons, if_neg ha]
      rw [List.find?_cons_of_neg _ ha]
      rw [List.find?_cons_of_neg _ ha] at h
      exact ih h

theorem get_world_update_const_self (gs : GameState) (id : Int) (W : World)
    (hW : W.id = id) (hex : (get_world gs id).isSome) :
    get_world (update_world gs id (fun _ => W)) id = some W := by
  unfold get_world update_world at *
  exact find?_map_const_of_found _ _ (by simp [hW]) gs.worlds hex

/-- C10: BUILD execution does not require owning the world — a fleet of the
builder at the world suffices — and a BUILD of I-ships or P-ships on an
unowned world makes the builder the owner in the same execution, leaving the
pending-capture field of ownership resolution untouched. -/
theorem build_claims_unowned_world (gs : GameState) (o : BuildOrder) (w : World)
    (hgw : get_world gs o.world_id = some w)
    (hneutral : w.owner = none)
    (hfleet : gs.fleets.any (fun f => f.world == o.world_id && f.owner == some o.player) = true)
    (htype : o.target_type = "I" ∨ o.target_type = "P")
    (hpos : 0 < min o.amount (min w.industry (min w.metal w.population))) :
    ∃ w2, get_world (execute_build_order gs o) o.world_id = some w2 ∧
      w2.owner = some o.player ∧
      w2.pending_owner = w.pending_owner ∧
      w2.iships + w2.pships =
        w.iships + w.pships + min o.amount (min w.industry (min w.metal w.population)) := by
  have hid : w.id = o.world_id := get_world_id gs o.world_id w hgw
  have hcb : can_build gs o w = true := by
    unfold can_build
    rw [hfleet, Bool.or_true]
  unfold execute_build_order
  rw [hgw]
  simp only [hcb, Bool.not_true, Bool.false_eq_true, if_false]
  rw [if_neg (by omega)]
  rcases htype with hI | hP
  · rw [if_pos (by simp [hI])]
    rw [if_pos (by simp [hneutral])]
    refine ⟨_, get_world_update_const_self gs o.world_id _ (by simpa using hid)
      (by rw [hgw]; rfl), rfl, rfl, ?_⟩
    simp
    omega
  · rw [if_neg (by simp [hP]), if_pos (by simp [hP])]
    rw [if_pos (by simp [hneutral])]
    refine ⟨_, get_world_update_const_self gs o.world_id _ (by simpa using hid)
      (by rw [hgw]; rfl), rfl, rfl, ?_⟩
    simp
    omega

/-- Witness for C10: player 7 builds 5 I-ships at the neutral world 5 where
only a fleet of player 7 is present, and immediately owns the world. -/
theorem build_claims_unowned_world_witness :
    ∃ w2, get_world (execute_build_order build_example_state build_example_order) 5 =
        some w2 ∧
      w2.owner = some 7 ∧ w2.pending_owner = none ∧ w2.iships + w2.pships = 0 + 0 + 5 := by
  have h := build_claims_unowned_world build_example_state build_example_order
    { id := 5, connections := [], owner := none, industry := 10, metal := 10,
      mines := 0, population := 10, limit := 20, iships := 0, pships := 0,
      population_used_building := 0, pending_owner := none }
    rfl rfl (by decide) (Or.inl rfl) (by decide)
  obtain ⟨w2, h1, h2, h3, h4⟩ := h
  exact ⟨w2, h1, h2, h3, by simpa using h4⟩

/-! ## Ownership resolution (mechanics/ownership.py) -/

/-- The set comprehension of check_world_ownership (ownership.py line 38):
owners of fleets at the world with positive ships, neutral fleets excluded.
The Python set of player objects becomes a deduplicated id list. -/
def orbiting_players (gs : GameState) (w : World) : List Int :=
  ((gs.fleets.filter (fun f =>
      f.world == w.id && decide (0 < f.ships) && f.owner != none)).filterMap
    Fleet.owner).dedup

/-- check_world_ownership (ownership.py lines 14-132), restricted to its
effect on the world record (the player.worlds bookkeeping lists mirror
world.owner and are omitted; events and messages carry no state). -/
def check_world_ownership (gs : GameState) (w : World) : World :=
  let orbiting := orbiting_players gs w
  let owner_has_presence :=
    match w.owner with
    | none => false
    | some o => orbiting.contains o || decide (0 < w.iships) || decide (0 < w.pships)
  if w.owner.isSome && !owner_has_presence then
    { w with owner := none, pending_owner := none }
  else if 1 < orbiting.length then
    match w.owner with
    | some o =>
      if !(orbiting.contains o) then { w with owner := none, pending_owner := none }
      else { w with pending_owner := none }
    | none => { w with pending_owner := none }
  else
    match orbiting with
    | [sole] =>
      let has_enemy_defense := w.owner.isSome && w.owner != some sole &&
        (decide (0 < w.iships) || decide (0 < w.pships))
      if has_enemy_defense then { w with pending_owner := none }
      else if w.owner == some sole then { w with pending_owner := none }
      else if w.pending_owner == some sole then
        { w with owner := some sole, pending_owner := none }
      else { w with pending_owner := some sole }
    | _ =>
      if w.owner.isSome then { w with owner := none, pending_owner := none }
      else { w with pending_owner := none }

/-- World 1: owned by player 1, defended by one I-ship, no owner fleet. -/
def contested_garrison_world : World :=
  { id := 1, connections := [], owner := some 1, industry := 5, metal := 5, mines := 1,
    population := 10, limit := 20, iships := 1, pships := 0,
    population_used_building := 0, pending_owner := none }

/-- Fleets of players 2 and 3 both orbit the garrisoned world 1. -/
def contested_garrison_state : GameState :=
  { worlds := [contested_garrison_world],
    fleets := [{ id := 1, owner := some 2, world := 1, ships := 1, cargo := 0,
                 moved := false, is_ambushing := false },
               { id := 2, owner := some 3, world := 1, ships := 1, cargo := 0,
                 moved := false, is_ambushing := false }] }

/-- C5 (failing input): ownership resolution on a world whose owner holds a
garrison of one I-ship, with fleets of two other players present, clears the
owner — the multiple-claimants branch (ownership.py lines 62-75) ignores the
garrison, against the Defended rule of the docstring of the same function
(lines 18-22). -/
theorem garrisoned_owner_evicted_when_contested :
    contested_garrison_world.owner = some 1 ∧ 0 < contested_garrison_world.iships ∧
    (check_world_ownership contested_garrison_state contested_garrison_world).owner =
      none := by
  refine ⟨rfl, by decide, ?_⟩
  decide

/-- World 1 with zero population, owned by player 1. -/
def zero_pop_world : World :=
  { id := 1, connections := [], owner := some 1, industry := 0, metal := 0, mines := 0,
    population := 0, limit := 20, iships := 0, pships := 0,
    population_used_building := 0, pending_owner := none }

/-- A fleet of the owner orbits the zero-population world. -/
def zero_pop_state : GameState :=
  { worlds := [zero_pop_world],
    fleets := [{ id := 1, owner := some 1, world := 1, ships := 1, cargo := 0,
                 moved := false, is_ambushing := false }] }

/-- C6 (counterexample): a zero-population world whose owner has a fleet in
orbit keeps its owner through ownership resolution — the claimed eviction of
owners of zero-population worlds does not happen. -/
theorem zero_population_world_keeps_owner :
    zero_pop_world.population = 0 ∧
    (check_world_ownership zero_pop_state zero_pop_world).owner = some 1 := by
  exact ⟨rfl, by decide⟩

/-- C6 (amended): ownership resolution never examines population — its
outcome commutes with any change of the population field, so zero-population
worlds are treated exactly like any other and no owner is evicted on account
of population. -/
theorem check_world_ownership_ignores_population (gs : GameState) (w : World) (p : Int) :
    check_world_ownership gs { w with population := p } =
      { check_world_ownership gs w with population := p } := by
  have horb : orbiting_players gs { w with population := p } = orbiting_players gs w := rfl
  simp only [check_world_ownership, horb]
  cases howner : w.owner with
  | none =>
    cases h : orbiting_players gs w with
    | nil => simp only []; split_ifs <;> rfl
    | cons sole rest =>
      cases rest with
      | nil => simp only []; split_ifs <;> rfl
      | cons b rest2 => simp only []; split_ifs <;> rfl
  | some o =>
    cases h : orbiting_players gs w with
    | nil => simp only []; split_ifs <;> rfl
    | cons sole rest =>
      cases rest with
      | nil => simp only []; split_ifs <;> rfl
      | cons b rest2 => simp only []; split_ifs <;> rfl

/-! ## Turn processing order (turn_processor.py) -/

/-- The phases of one process_turn invocation, in the source order of
turn_processor.py lines 83-144: the order groups executed by the numbered
blocks, then the production pass, then the capture and ownership passes,
then score recomputation. -/
inductive Phase
  | TRANSFER
  | TRANSFER_FROM_DEFENSE
  | TRANSFER_ARTIFACT
  | LOAD
  | UNLOAD
  | BUILD
  | FIRE
  | DEFENSE_FIRE
  | AMBUSH
  | MOVE
  | PRODUCTION
  | CAPTURE_RESOLUTION
  | SCORING
  deriving Repr, DecidableEq

/-- Position of each phase in the fixed execution sequence of process_turn. -/
def phase_rank : Phase → Nat
  | .TRANSFER => 0
  | .TRANSFER_FROM_DEFENSE => 1
  | .TRANSFER_ARTIFACT => 2
  | .LOAD => 3
  | .UNLOAD => 4
  | .BUILD => 5
  | .FIRE => 6
  | .DEFENSE_FIRE => 7
  | .AMBUSH => 8
  | .MOVE => 9
  | .PRODUCTION => 10
  | .CAPTURE_RESOLUTION => 11
  | .SCORING => 12

/-- group_orders_by_type followed by the per-type retrieval
(turn_processor.py lines 31-46 and the orders_by_type.get calls): the orders
of one type, in their original relative sequence, are the filter of the
drained order list by that type. -/
def orders_of_type (order_types : List String) (t : String) : List String :=
  order_types.filter (fun s => s == t)

/-- One for-loop of process_turn: each executed order of the group
contributes one step of its phase. -/
def phase_steps (order_types : List String) (t : String) (p : Phase) : List Phase :=
  (orders_of_type order_types t).map (fun _ => p)

/-- The phase-level execution trace of process_turn (lines 83-144), written
as the source sequences its for-loops, ending with the production, capture
resolution and scoring passes. -/
def turn_phase_trace (order_types : List String) : List Phase :=
  phase_steps order_types "TRANSFER" Phase.TRANSFER ++
  (phase_steps order_types "TRANSFER_FROM_DEFENSE" Phase.TRANSFER_FROM_DEFENSE ++
  (phase_steps order_types "TRANSFER_ARTIFACT" Phase.TRANSFER_ARTIFACT ++
  (phase_steps order_types "LOAD" Phase.LOAD ++
  (phase_steps order_types "UNLOAD" Phase.UNLOAD ++
  (phase_steps order_types "BUILD" Phase.BUILD ++
  (phase_steps order_types "FIRE" Phase.FIRE ++
  (phase_steps order_types "DEFENSE_FIRE" Phase.DEFENSE_FIRE ++
  (phase_steps order_types "AMBUSH" Phase.AMBUSH ++
  (phase_steps order_types "MOVE" Phase.MOVE ++
  [Phase.PRODUCTION, Phase.CAPTURE_RESOLUTION, Phase.SCORING])))))))))

theorem mem_phase_steps {order_types : List String} {t : String} {p a : Phase}
    (h : a ∈ phase_steps order_types t p) : a = p := by
  obtain ⟨x, _, he⟩ := List.mem_map.mp h
  exact he.symm

theorem pairwise_phase_steps (order_types : List String) (t : String) (p : Phase) :
    (phase_steps order_types t p).Pairwise (fun a b => phase_rank a ≤ phase_rank b) := by
  rw [phase_steps, List.pairwise_map]
  induction orders_of_type order_types t with
  | nil => exact List.Pairwise.nil
  | cons x l ih => exact List.Pairwise.cons (fun y _ => le_refl _) ih

/-- Every element of the list has phase rank at least n. -/
def rank_lb (n : Nat) (l : List Phase) : Prop :=
  ∀ a ∈ l, n ≤ phase_rank a

theorem rank_lb_append {n : Nat} {l1 l2 : List Phase}
    (h1 : rank_lb n l1) (h2 : rank_lb n l2) : rank_lb n (l1 ++ l2) := by
  intro a ha
  rcases List.mem_append.mp ha with h | h
  · exact h1 a h
  · exact h2 a h

theorem rank_lb_steps {n : Nat} {order_types : List String} {t : String} {p : Phase}
    (h : n ≤ phase_rank p) : rank_lb n (phase_steps order_types t p) :=
  fun _a ha => (mem_phase_steps ha) ▸ h

theorem rank_lb_mono {m n : Nat} {l : List Phase} (hmn : m ≤ n) (h : rank_lb n l) :
    rank_lb m l :=
  fun a ha => le_trans hmn (h a ha)

theorem pairwise_steps_append (order_types : List String) (t : String) (p : Phase)
    {l2 : List Phase} (hlb : rank_lb (phase_rank p) l2)
    (h2 : l2.Pairwise (fun a b => phase_rank a ≤ phase_rank b)) :
    (phase_steps order_types t p ++ l2).Pairwise
      (fun a b => phase_rank a ≤ phase_rank b) :=
  List.pairwise_append.mpr
    ⟨pairwise_phase_steps order_types t p, h2,
     fun _a ha b hb => (mem_phase_steps ha) ▸ hlb b hb⟩

theorem rank_lb_steps_append (order_types : List String) (t : String) (p : Phase)
    {n : Nat} {l2 : List Phase} (hp : n ≤ phase_rank p) (h2 : rank_lb n l2) :
    rank_lb n (phase_steps order_types t p ++ l2) :=
  rank_lb_append (rank_lb_steps hp) h2

/-- C1: in one process_turn invocation the phase ranks along the execution
trace never decrease — every TRANSFER order runs before every
TRANSFER_FROM_DEFENSE order, and so on through MOVE, and production, capture
and ownership resolution, and scoring all come after every executed order,
in that sequence. -/
theorem turn_phase_order (order_types : List String) :
    (turn_phase_trace order_types).Pairwise (fun a b => phase_rank a ≤ phase_rank b) := by
  unfold turn_phase_trace
  have pw_tail : ([Phase.PRODUCTION, Phase.CAPTURE_RESOLUTION, Phase.SCORING]).Pairwise
      (fun a b => phase_rank a ≤ phase_rank b) := by decide
  have lb_tail : rank_lb 10 [Phase.PRODUCTION, Phase.CAPTURE_RESOLUTION, Phase.SCORING] := by
    intro a ha
    rcases List.mem_cons.mp ha with rfl | ha
    · decide
    rcases List.mem_cons.mp ha with rfl | ha
    · decide
    rcases List.mem_cons.mp ha with rfl | ha
    · decide
    cases ha
  have pw9 := pairwise_steps_append order_types "MOVE" Phase.MOVE
    (rank_lb_mono (by decide) lb_tail) pw_tail
  have lb9 := rank_lb_steps_append order_types "MOVE" Phase.MOVE
    (le_refl 9) (rank_lb_mono (by decide) lb_tail)
  have pw8 := pairwise_steps_append order_types "AMBUSH" Phase.AMBUSH
    (rank_lb_mono (by decide) lb9) pw9
  have lb8 := rank_lb_steps_append order_types "AMBUSH" Phase.AMBUSH
    (le_refl 8) (rank_lb_mono (by decide) lb9)
  have pw7 := pairwise_steps_append order_types "DEFENSE_FIRE" Phase.DEFENSE_FIRE
    (rank_lb_mono (by decide) lb8) pw8
  have lb7 := rank_lb_steps_append order_types "DEFENSE_FIRE" Phase.DEFENSE_FIRE
    (le_refl 7) (rank_lb_mono (by decide) lb8)
  have pw6 := pairwise_steps_append order_types "FIRE" Phase.FIRE
    (rank_lb_mono (by decide) lb7) pw7
  have lb6 := rank_lb_steps_append order_types "FIRE" Phase.FIRE
    (le_refl 6) (rank_lb_mono (by decide) lb7)
  have pw5 := pairwise_steps_append order_types "BUILD" Phase.BUILD
    (rank_lb_mono (by decide) lb6) pw6
  have lb5 := rank_lb_steps_append order_types "BUILD" Phase.BUILD
    (le_refl 5) (rank_lb_mono (by decide) lb6)
  have pw4 := pairwise_steps_append order_types "UNLOAD" Phase.UNLOAD
    (rank_lb_mono (by decide) lb5) pw5
  have lb4 := rank_lb_steps_append order_types "UNLOAD" Phase.UNLOAD
    (le_refl 4) (rank_lb_mono (by decide) lb5)
  have pw3 := pairwise_steps_append order_types "LOAD" Phase.LOAD
    (rank_lb_mono (by decide) lb4) pw4
  have lb3 := rank_lb_steps_append order_types "LOAD" Phase.LOAD
    (le_refl 3) (rank_lb_mono (by decide) lb4)
  have pw2 := pairwise_steps_append order_types "TRANSFER_ARTIFACT" Phase.TRANSFER_ARTIFACT
    (rank_lb_mono (by decide) lb3) pw3
  have lb2 := rank_lb_steps_append order_types "TRANSFER_ARTIFACT" Phase.TRANSFER_ARTIFACT
    (le_refl 2) (rank_lb_mono (by decide) lb3)
  have pw1 := pairwise_steps_append order_types "TRANSFER_FROM_DEFENSE"
    Phase.TRANSFER_FROM_DEFENSE (rank_lb_mono (by decide) lb2) pw2
  have lb1 := rank_lb_steps_append order_types "TRANSFER_FROM_DEFENSE"
    Phase.TRANSFER_FROM_DEFENSE (le_refl 1) (rank_lb_mono (by decide) lb2)
  exact pairwise_steps_append order_types "TRANSFER" Phase.TRANSFER
    (rank_lb_mono (by decide) lb1) pw1

/-! ## Order admission (command_handlers.py, commands.py,
command_validators.py)

Order admission never mutates the entity registries, so the game state is a
fixed parameter; the per-player queues are modelled as one list of queued
orders in admission sequence, each order carrying its issuing player, which
is the concatenation the drain step of process_turn takes anyway.  The list
of one player is the filter of this list by the player field. -/

/-- A queued order as to_order builds it: the type tag, the issuing player,
and the fleet_id field when the command carries one. -/
structure QOrder where
  otype : String
  player : Int
  fleet_id : Option Int
  deriving Repr, DecidableEq

/-- EXCLUSIVE_ORDER_TYPES (commands.py line 1517). -/
def EXCLUSIVE_ORDER_TYPES : List String :=
  ["MOVE", "FIRE", "AMBUSH", "CONDITIONAL_FIRE"]

/-- has_exclusive_order (commands.py lines 1520-1525): scans the queue of
the given player for an exclusive order on the given fleet. -/
def has_exclusive_order (orders : List QOrder) (player fleet_id : Int) : Bool :=
  orders.any (fun o =>
    o.player == player && o.fleet_id == some fleet_id &&
      EXCLUSIVE_ORDER_TYPES.contains o.otype)

/-- The commands reaching handle_command_message, at the granularity claim
C8 needs: the four classes whose to_order type is exclusive
(MoveFleetCommand, FireCommand, AmbushCommand, ConditionalFireCommand) are
embedded with their validate methods from commands.py; every other command
class is the last case, carrying its type tag, its fleet_id attribute when
it has one, and the outcome of its own validate method as a boolean. -/
inductive Cmd
  | move (player fleet_id : Int) (path : List Int)
  | fire (player fleet_id : Int) (target_type : String) (target_id : Option Int)
  | ambush (player fleet_id : Int)
  | conditional_fire (player fleet_id : Int) (target_type : String) (target_id : Option Int)
  | other (player : Int) (otype : String) (fleet_id : Option Int) (valid : Bool)
  deriving Repr, DecidableEq

def cmd_player : Cmd → Int
  | .move p _ _ => p
  | .fire p _ _ _ => p
  | .ambush p _ => p
  | .conditional_fire p _ _ _ => p
  | .other p _ _ _ => p

/-- The fleet_id attribute handle_command_message probes with hasattr. -/
def cmd_fleet_id : Cmd → Option Int
  | .move _ f _ => some f
  | .fire _ f _ _ => some f
  | .ambush _ f => some f
  | .conditional_fire _ f _ _ => some f
  | .other _ _ f _ => f

/-- validate_fleet_ownership (command_validators.py lines 40-54). -/
def validate_fleet_ownership (gs : GameState) (player fleet_id : Int) : Bool :=
  match get_fleet gs fleet_id with
  | none => false
  | some f => f.owner == some player

/-- validate_fleet_has_ships (command_validators.py lines 57-78) at the
default minimum of one ship. -/
def validate_fleet_has_ships (gs : GameState) (player fleet_id : Int) : Bool :=
  match get_fleet gs fleet_id with
  | none => false
  | some f => f.owner == some player && decide (1 ≤ f.ships)

/-- validate_not_own_fleet (command_validators.py lines 266-280). -/
def validate_not_own_fleet (gs : GameState) (player target_id : Int) : Bool :=
  match get_fleet gs target_id with
  | none => false
  | some f => !(f.owner == some player)

/-- validate_fleet_at_same_world (command_validators.py lines 105-121). -/
def validate_fleet_at_same_world (gs : GameState) (fleet1_id fleet2_id : Int) : Bool :=
  match get_fleet gs fleet1_id, get_fleet gs fleet2_id with
  | some f1, some f2 => f1.world == f2.world
  | _, _ => false

/-- The path-connectivity loop of MoveFleetCommand.validate (commands.py
lines 66-72): validate_world_connected hop by hop. -/
def validate_path_connected (gs : GameState) : Int → List Int → Bool
  | _, [] => true
  | current, next :: rest =>
    (match get_world gs current with
     | none => false
     | some w => w.connections.contains next) && validate_path_connected gs next rest

/-- MoveFleetCommand.validate (commands.py lines 60-73). -/
def validate_move (gs : GameState) (player fleet_id : Int) (path : List Int) : Bool :=
  validate_fleet_has_ships gs player fleet_id &&
    (match get_fleet gs fleet_id with
     | none => false
     | some fleet => validate_path_connected gs fleet.world path)

/-- The valid_targets list of FireCommand.validate (commands.py line 324). -/
def fire_valid_targets : List String :=
  ["FLEET", "ISHIPS", "PSHIPS", "HOME", "INDUSTRY", "POPULATION", "CONVERTS", "WORLD"]

/-- FireCommand.validate (commands.py lines 306-329).  Python tests
self.target_id for truthiness, so a missing id and an id of 0 coincide. -/
def validate_fire (gs : GameState) (player fleet_id : Int) (target_type : String)
    (target_id : Option Int) : Bool :=
  validate_fleet_has_ships gs player fleet_id &&
    (if target_type == "FLEET" && target_id.getD 0 != 0 then
       validate_not_own_fleet gs player (target_id.getD 0) &&
         validate_fleet_at_same_world gs fleet_id (target_id.getD 0)
     else true) &&
    fire_valid_targets.contains target_type

/-- ConditionalFireCommand.validate (commands.py lines 1355-1373). -/
def validate_conditional_fire (gs : GameState) (player fleet_id : Int)
    (target_type : String) (target_id : Option Int) : Bool :=
  validate_fleet_has_ships gs player fleet_id &&
    (if target_type == "FLEET" && target_id.getD 0 != 0 then
       validate_not_own_fleet gs player (target_id.getD 0) &&
         validate_fleet_at_same_world gs fleet_id (target_id.getD 0)
     else true)

/-- command.validate dispatch: the four exclusive classes from the source,
the valid bit for every other class. -/
def validate_cmd (gs : GameState) : Cmd → Bool
  | .move p f path => validate_move gs p f path
  | .fire p f tt tid => validate_fire gs p f tt tid
  | .ambush p f => validate_fleet_ownership gs p f
  | .conditional_fire p f tt tid => validate_conditional_fire gs p f tt tid
  | .other _ _ _ valid => valid

/-- command.to_order, restricted to the fields has_exclusive_order reads. -/
def to_order : Cmd → QOrder
  | .move p f _ => { otype := "MOVE", player := p, fleet_id := some f }
  | .fire p f _ _ => { otype := "FIRE", player := p, fleet_id := some f }
  | .ambush p f => { otype := "AMBUSH", player := p, fleet_id := some f }
  | .conditional_fire p f _ _ =>
      { otype := "CONDITIONAL_FIRE", player := p, fleet_id := some f }
  | .other p t f _ => { otype := t, player := p, fleet_id := f }

inductive AdmitResult
  | rejected_exclusive
  | rejected_invalid
  | queued
  deriving Repr, DecidableEq

/-- The admission decision of handle_command_message (command_handlers.py
lines 71-98): the exclusivity gate runs first for any command with a
fleet_id attribute, then validate, and only then is the order appended. -/
def handle_command (gs : GameState) (orders : List QOrder) (c : Cmd) :
    List QOrder × AdmitResult :=
  match cmd_fleet_id c with
  | some fid =>
    if has_exclusive_order orders (cmd_player c) fid then
      (orders, AdmitResult.rejected_exclusive)
    else if validate_cmd gs c then (orders ++ [to_order c], AdmitResult.queued)
    else (orders, AdmitResult.rejected_invalid)
  | none =>
    if validate_cmd gs c then (orders ++ [to_order c], AdmitResult.queued)
    else (orders, AdmitResult.rejected_invalid)

/-- A whole admission window: commands are admitted one at a time into the
initially empty queues. -/
def admit_commands (gs : GameState) (cs : List Cmd) : List QOrder :=
  cs.foldl (fun orders c => (handle_command gs orders c).1) []

/-- The queued orders for a fleet whose type is among the three the claim
names. -/
def exclusive_order_count (orders : List QOrder) (fleet_id : Int) : Nat :=
  (orders.filter (fun o =>
    o.fleet_id == some fleet_id &&
      (o.otype == "MOVE" || o.otype == "FIRE" || o.otype == "AMBUSH"))).length

/-- In the source exactly the four modelled classes emit an exclusive order
type, so an abstracted other-command never carries one of those tags. -/
def cmd_other_wf : Cmd → Prop
  | .other _ t _ _ => EXCLUSIVE_ORDER_TYPES.contains t = false
  | _ => True

theorem to_order_fleet_id (c : Cmd) : (to_order c).fleet_id = cmd_fleet_id c := by
  cases c <;> rfl

theorem to_order_player (c : Cmd) : (to_order c).player = cmd_player c := by
  cases c <;> rfl

theorem validate_fleet_ownership_owner (gs : GameState) (p fid : Int)
    (h : validate_fleet_ownership gs p fid = true) :
    ∃ f, get_fleet gs fid = some f ∧ f.owner = some p := by
  unfold validate_fleet_ownership at h
  cases hgf : get_fleet gs fid with
  | none => rw [hgf] at h; cases h
  | some f =>
    rw [hgf] at h
    exact ⟨f, rfl, by simpa using h⟩

theorem validate_fleet_has_ships_owner (gs : GameState) (p fid : Int)
    (h : validate_fleet_has_ships gs p fid = true) :
    ∃ f, get_fleet gs fid = some f ∧ f.owner = some p := by
  unfold validate_fleet_has_ships at h
  cases hgf : get_fleet gs fid with
  | none => rw [hgf] at h; cases h
  | some f =>
    rw [hgf] at h
    exact ⟨f, rfl, by simpa using (Bool.and_eq_true _ _ |>.mp h).1⟩

theorem validate_cmd_owner (gs : GameState) (c : Cmd) (fid : Int)
    (hwf : cmd_other_wf c)
    (hfid : cmd_fleet_id c = some fid)
    (hexcl : EXCLUSIVE_ORDER_TYPES.contains (to_order c).otype = true)
    (hval : validate_cmd gs c = true) :
    ∃ f, get_fleet gs fid = some f ∧ f.owner = some (cmd_player c) := by
  cases c with
  | move p f path =>
    have hfe : f = fid := by simpa [cmd_fleet_id] using hfid
    rw [← hfe]
    have hv : validate_move gs p f path = true := hval
    unfold validate_move at hv
    exact validate_fleet_has_ships_owner gs p f (Bool.and_eq_true _ _ |>.mp hv).1
  | fire p f tt tid =>
    have hfe : f = fid := by simpa [cmd_fleet_id] using hfid
    rw [← hfe]
    have hv : validate_fire gs p f tt tid = true := hval
    unfold validate_fire at hv
    exact validate_fleet_has_ships_owner gs p f
      (Bool.and_eq_true _ _ |>.mp (Bool.and_eq_true _ _ |>.mp hv).1).1
  | ambush p f =>
    have hfe : f = fid := by simpa [cmd_fleet_id] using hfid
    rw [← hfe]
    exact validate_fleet_ownership_owner gs p f hval
  | conditional_fire p f tt tid =>
    have hfe : f = fid := by simpa [cmd_fleet_id] using hfid
    rw [← hfe]
    have hv : validate_conditional_fire gs p f tt tid = true := hval
    unfold validate_conditional_fire at hv
    exact validate_fleet_has_ships_owner gs p f (Bool.and_eq_true _ _ |>.mp hv).1
  | other p t f v =>
    have hwf2 : EXCLUSIVE_ORDER_TYPES.contains t = false := hwf
    have hexcl2 : EXCLUSIVE_ORDER_TYPES.contains t = true := hexcl
    rw [hwf2] at hexcl2
    cases hexcl2

/-- The invariant of the admission loop: for every fleet id, at most one
queued order carries one of the four exclusive tags, and each such order was
issued by the owner of that fleet. -/
def exclusive_inv (gs : GameState) (orders : List QOrder) : Prop :=
  ∀ fid : Int,
    (orders.filter (fun o =>
      o.fleet_id == some fid && EXCLUSIVE_ORDER_TYPES.contains o.otype)).length ≤ 1 ∧
    ∀ o ∈ orders,
      (o.fleet_id == some fid && EXCLUSIVE_ORDER_TYPES.contains o.otype) = true →
      ∃ f, get_fleet gs fid = some f ∧ f.owner = some o.player

theorem exclusive_inv_nil (gs : GameState) : exclusive_inv gs [] := by
  intro fid
  constructor
  · simp
  · intro o ho
    cases ho

theorem exclusive_inv_append_nonexcl (gs : GameState) (orders : List QOrder)
    (o2 : QOrder) (hne : EXCLUSIVE_ORDER_TYPES.contains o2.otype = false)
    (hinv : exclusive_inv gs orders) : exclusive_inv gs (orders ++ [o2]) := by
  intro fid
  have hpred : (o2.fleet_id == some fid && EXCLUSIVE_ORDER_TYPES.contains o2.otype) = false := by
    rw [hne, Bool.and_false]
  constructor
  · rw [List.filter_append, List.filter_cons, if_neg (by rw [hpred]; exact Bool.false_ne_true),
      List.filter_nil, List.append_nil]
    exact (hinv fid).1
  · intro o ho hp
    rcases List.mem_append.mp ho with h | h
    · exact (hinv fid).2 o h hp
    · rw [List.mem_singleton.mp h] at hp
      rw [hpred] at hp
      cases hp

theorem exclusive_inv_append_excl (gs : GameState) (orders : List QOrder)
    (p fid0 : Int) (t : String)
    (ht : EXCLUSIVE_ORDER_TYPES.contains t = true)
    (hown : ∃ f, get_fleet gs fid0 = some f ∧ f.owner = some p)
    (hgate : has_exclusive_order orders p fid0 = false)
    (hinv : exclusive_inv gs orders) :
    exclusive_inv gs (orders ++ [{ otype := t, player := p, fleet_id := some fid0 }]) := by
  intro fid
  set o2 : QOrder := { otype := t, player := p, fleet_id := some fid0 } with ho2
  have hgate2 : ∀ o ∈ orders,
      (o.player == p && o.fleet_id == some fid0 &&
        EXCLUSIVE_ORDER_TYPES.contains o.otype) = false := by
    intro o ho
    by_contra hcon
    have hany : has_exclusive_order orders p fid0 = true := by
      unfold has_exclusive_order
      rw [List.any_eq_true]
      exact ⟨o, ho, by revert hcon; cases h2 : (o.player == p && o.fleet_id == some fid0 &&
        EXCLUSIVE_ORDER_TYPES.contains o.otype) <;> simp⟩
    rw [hany] at hgate
    cases hgate
  by_cases hfe : fid = fid0
  · subst hfe
    have hnil : orders.filter (fun o =>
        o.fleet_id == some fid && EXCLUSIVE_ORDER_TYPES.contains o.otype) = [] := by
      rw [List.filter_eq_nil_iff]
      intro o ho hp
      obtain ⟨f, hf, hfo⟩ := (hinv fid).2 o ho (by simpa using hp)
      obtain ⟨f2, hf2, hf2o⟩ := hown
      have hff : f = f2 := by rw [hf] at hf2; exact Option.some.inj hf2
      have hop : o.player = p := by
        rw [hff] at hfo
        rw [hfo] at hf2o
        exact Option.some.inj hf2o
      have hfalse := hgate2 o ho
      rw [hop] at hfalse
      simp only [beq_self_eq_true, Bool.true_and] at hfalse
      revert hp
      rw [show (o.fleet_id == some fid && EXCLUSIVE_ORDER_TYPES.contains o.otype) = false
        from hfalse]
      exact fun hp => Bool.false_ne_true hp
    have hpt : (o2.fleet_id == some fid && EXCLUSIVE_ORDER_TYPES.contains o2.otype) = true := by
      rw [show o2.fleet_id = some fid from rfl, show o2.otype = t from rfl,
        beq_self_eq_true, Bool.true_and]
      exact ht
    constructor
    · rw [List.filter_append, hnil, List.nil_append, List.filter_cons, if_pos hpt,
        List.filter_nil]
      simp
    · intro o ho hp
      rcases List.mem_append.mp ho with h | h
      · exact (hinv fid).2 o h hp
      · rw [List.mem_singleton.mp h]
        exact hown
  · have hpred : (o2.fleet_id == some fid && EXCLUSIVE_ORDER_TYPES.contains o2.otype) = false := by
      rw [show o2.fleet_id = some fid0 from rfl]
      have hb : ((some fid0 : Option Int) == some fid) = false := by
        rw [beq_eq_false_iff_ne]
        intro hc
        exact hfe (Option.some.inj hc).symm
      rw [hb, Bool.false_and]
    constructor
    · rw [List.filter_append, List.filter_cons,
        if_neg (by rw [hpred]; exact Bool.false_ne_true), List.filter_nil, List.append_nil]
      exact (hinv fid).1
    · intro o ho hp
      rcases List.mem_append.mp ho with h | h
      · exact (hinv fid).2 o h hp
      · rw [List.mem_singleton.mp h] at hp
        rw [hpred] at hp
        cases hp

theorem handle_command_inv (gs : GameState) (orders : List QOrder) (c : Cmd)
    (hwf : cmd_other_wf c) (hinv : exclusive_inv gs orders) :
    exclusive_inv gs (handle_command gs orders c).1 := by
  unfold handle_command
  cases hfid : cmd_fleet_id c with
  | some fid =>
    simp only []
    by_cases hgate : has_exclusive_order orders (cmd_player c) fid = true
    · rw [if_pos hgate]
      exact hinv
    · rw [if_neg hgate]
      by_cases hval : validate_cmd gs c = true
      · rw [if_pos hval]
        simp only []
        by_cases hexcl : EXCLUSIVE_ORDER_TYPES.contains (to_order c).otype = true
        · have hown := validate_cmd_owner gs c fid hwf hfid hexcl hval
          have hof : (to_order c).fleet_id = some fid := by rw [to_order_fleet_id, hfid]
          have hop := to_order_player c
          have hto : to_order c =
              { otype := (to_order c).otype, player := cmd_player c, fleet_id := some fid } := by
            rw [← hop, ← hof]
          rw [hto]
          exact exclusive_inv_append_excl gs orders (cmd_player c) fid (to_order c).otype
            hexcl hown (by simpa using hgate) hinv
        · exact exclusive_inv_append_nonexcl gs orders _
            (by simpa using hexcl) hinv
      · rw [if_neg hval]
        exact hinv
  | none =>
    simp only []
    by_cases hval : validate_cmd gs c = true
    · rw [if_pos hval]
      simp only []
      apply exclusive_inv_append_nonexcl gs orders _ ?_ hinv
      cases c with
      | other p t f v => exact hwf
      | move p f path => cases hfid
      | fire p f tt tid => cases hfid
      | ambush p f => cases hfid
      | conditional_fire p f tt tid => cases hfid
    · rw [if_neg hval]
      exact hinv

theorem admit_commands_inv (gs : GameState) (cs : List Cmd)
    (hwf : ∀ c ∈ cs, cmd_other_wf c) :
    exclusive_inv gs (admit_commands gs cs) := by
  unfold admit_commands
  have main : ∀ (cs2 : List Cmd) (orders : List QOrder), (∀ c ∈ cs2, cmd_other_wf c) →
      exclusive_inv gs orders →
      exclusive_inv gs (cs2.foldl (fun os c => (handle_command gs os c).1) orders) := by
    intro cs2
    induction cs2 with
    | nil => intro orders _ h; exact h
    | cons c cs3 ih =>
      intro orders hwf2 h
      exact ih _ (fun x hx => hwf2 x (List.mem_cons_of_mem c hx))
        (handle_command_inv gs orders c (hwf2 c (List.mem_cons_self c cs3)) h)
  exact main cs [] hwf (exclusive_inv_nil gs)

theorem exclusive_order_count_le (orders : List QOrder) (fid : Int) :
    exclusive_order_count orders fid ≤
      (orders.filter (fun o =>
        o.fleet_id == some fid && EXCLUSIVE_ORDER_TYPES.contains o.otype)).length := by
  unfold exclusive_order_count
  rw [← List.countP_eq_length_filter _ orders, ← List.countP_eq_length_filter _ orders]
  apply List.countP_mono_left
  intro o _ h
  obtain ⟨h1, h2⟩ := Bool.and_eq_true _ _ |>.mp h
  rw [Bool.and_eq_true]
  refine ⟨h1, ?_⟩
  rcases Bool.or_eq_true _ _ |>.mp h2 with h3 | h3
  · rcases Bool.or_eq_true _ _ |>.mp h3 with h4 | h4
    · rw [show o.otype = "MOVE" from by simpa using h4]; rfl
    · rw [show o.otype = "FIRE" from by simpa using h4]; rfl
  · rw [show o.otype = "AMBUSH" from by simpa using h3]; rfl

/-- C8: over any admission sequence from empty queues, every fleet ends
with at most one queued order of type MOVE, FIRE or AMBUSH across all
players; and a command for a fleet that already holds an exclusive order is
rejected by the gate with the queue unchanged, before its validate method
contributes anything to the outcome. -/
theorem exclusive_order_admission (gs : GameState) (cs : List Cmd)
    (hwf : ∀ c ∈ cs, cmd_other_wf c) :
    (∀ fid : Int, exclusive_order_count (admit_commands gs cs) fid ≤ 1) ∧
    (∀ (orders : List QOrder) (c : Cmd) (fid : Int),
        cmd_fleet_id c = some fid →
        has_exclusive_order orders (cmd_player c) fid = true →
        handle_command gs orders c = (orders, AdmitResult.rejected_exclusive)) := by
  constructor
  · intro fid
    exact le_trans (exclusive_order_count_le _ _) ((admit_commands_inv gs cs hwf fid).1)
  · intro orders c fid h1 h2
    unfold handle_command
    rw [h1]
    simp [h2]

/-- World 1 and 2 are linked; fleet 5 of player 1 sits at world 1. -/
def admission_example_state : GameState :=
  { worlds := [{ id := 1, connections := [2], owner := none, industry := 0, metal := 0,
                 mines := 0, population := 0, limit := 0, iships := 0, pships := 0,
                 population_used_building := 0, pending_owner := none },
               { id := 2, connections := [1], owner := none, industry := 0, metal := 0,
                 mines := 0, population := 0, limit := 0, iships := 0, pships := 0,
                 population_used_building := 0, pending_owner := none }],
    fleets := [{ id := 5, owner := some 1, world := 1, ships := 3, cargo := 0,
                 moved := false, is_ambushing := false }] }

/-- Player 1 queues a MOVE for fleet 5, then tries an AMBUSH for the same
fleet in the same turn. -/
def admission_example_cmds : List Cmd :=
  [Cmd.move 1 5 [2], Cmd.ambush 1 5]

/-- Witness for C8: after the example admissions fleet 5 holds at most one
exclusive order, and the second command hits the gate with the queue
unchanged. -/
theorem exclusive_order_admission_witness :
    exclusive_order_count (admit_commands admission_example_state admission_example_cmds) 5 ≤ 1 ∧
    handle_command admission_example_state
        [{ otype := "MOVE", player := 1, fleet_id := some 5 }] (Cmd.ambush 1 5) =
      ([{ otype := "MOVE", player := 1, fleet_id := some 5 }],
        AdmitResult.rejected_exclusive) := by
  have h := exclusive_order_admission admission_example_state admission_example_cmds (by
    intro c hc
    rcases List.mem_cons.mp hc with rfl | hc
    · trivial
    rcases List.mem_cons.mp hc with rfl | hc
    · trivial
    cases hc)
  exact ⟨h.1 5,
    h.2 [{ otype := "MOVE", player := 1, fleet_id := some 5 }] (Cmd.ambush 1 5) 5 rfl
      (by decide)⟩

end GalaxyOne
